import Mathlib

/-!
Event-forwarding HTTP server (`gotest1.go`)

A shallow embedding of the Go program: the `Request` / `Transformed` records,
`transformData`, `sendData`, the `worker` loop and the `/submit` handler,
followed by the properties established about them.

Modelling conventions.

* A Go `map[string]V` is either the nil map or an allocated map.  An allocated
  map is a duplicate-free association list; the order of its entries is the
  order in which a `range` loop visits them, so quantifying over all listings
  quantifies over all iteration orders.
* A Go run-time panic (here: assignment to an entry of a nil map, a negative
  `WaitGroup` counter) is the result `none`.
* `encoding/json`, `net/http` and the network are outside the program; they are
  parameters (`Env`).
* Goroutines are interleaved: one `Action` is one atomic step of one goroutine.
-/

namespace GoServer

/-! ## Go maps -/

/-- Value of Go type `map[string]V`. -/
inductive GoMap (V : Type) where
  | nil : GoMap V
  | alloc (m : AList (fun _ : String => V)) : GoMap V

namespace GoMap

variable {V : Type}

/-- Allocation `make(map[string]V)`: an allocated map without entries. -/
def make : GoMap V := alloc ∅

/-- Comparison `m == nil`. -/
def isNil : GoMap V → Bool
  | nil => true
  | alloc _ => false

/-- Entries in the order `for key, value := range m` visits them; a nil map has none. -/
def entries : GoMap V → List (String × V)
  | nil => []
  | alloc m => m.entries.map (fun e => (e.1, e.2))

/-- Key list of the map, in iteration order. -/
def keys (m : GoMap V) : List String := m.entries.map Prod.fst

/-- Comma-ok read `v, ok := m[k]`; reading a nil map finds nothing. -/
def get? : GoMap V → String → Option V
  | nil, _ => none
  | alloc m, k => m.lookup k

/-- Assignment `m[k] = v`; on a nil map Go panics, which is `none`. -/
def set : GoMap V → String → V → Option (GoMap V)
  | nil, _, _ => none
  | alloc m, k, v => some (alloc (m.insert k v))

/-- Read `m[k]` of a `map[string]string`: the zero value `""` when `k` is absent. -/
def index (m : GoMap String) (k : String) : String :=
  match m.get? k with
  | some v => v
  | none => ""

/-- Allocated map with the given entries, in that iteration order (of two
entries with the same key the later one is kept, as when a JSON object repeats
a key). Used to write down concrete maps. -/
def ofList (l : List (String × V)) : GoMap V :=
  alloc (l.foldr (fun kv m => if kv.1 ∈ m.keys then m else m.insert kv.1 kv.2) ∅)

/-- Two maps hold the same value under every key (a nil map and an allocated
map without entries are not told apart). -/
def SameEntries (m₁ m₂ : GoMap V) : Prop :=
  ∀ k, m₁.get? k = m₂.get? k

/-- Observational equality of two maps: same nil-ness and the same value under
every key. -/
def Equiv (m₁ m₂ : GoMap V) : Prop :=
  m₁.isNil = m₂.isNil ∧ m₁.SameEntries m₂

end GoMap

/-! ## Records -/

/-- Go struct `Request`. -/
structure Request where
  Ev : String
  Et : String
  ID : String
  UID : String
  MID : String
  T : String
  P : String
  L : String
  SC : String
  ATRK : GoMap String
  ATRV : GoMap String
  ATRT : GoMap String
  UATRK : GoMap String
  UATRV : GoMap String
  UATRT : GoMap String

/-- Go struct `Attribute`. -/
structure Attribute where
  Value : String
  /-- Go field `Type` (a reserved word in Lean). -/
  Type_ : String
deriving DecidableEq, Repr

/-- Go struct `Trait`. -/
structure Trait where
  Value : String
  /-- Go field `Type` (a reserved word in Lean). -/
  Type_ : String
deriving DecidableEq, Repr

/-- Go struct `Transformed`. -/
structure Transformed where
  Event : String
  EventType : String
  AppID : String
  UserID : String
  MessageID : String
  PageTitle : String
  PageURL : String
  BrowserLanguage : String
  ScreenSize : String
  Attributes : GoMap Attribute
  Traits : GoMap Trait

/-- Two requests equal as records with keyed mappings: equal scalar fields and,
for each mapping field, the same value under every key, whatever the order of
the entries. -/
def Request.Equiv (r₁ r₂ : Request) : Prop :=
  r₁.Ev = r₂.Ev ∧ r₁.Et = r₂.Et ∧ r₁.ID = r₂.ID ∧ r₁.UID = r₂.UID ∧ r₁.MID = r₂.MID ∧
  r₁.T = r₂.T ∧ r₁.P = r₂.P ∧ r₁.L = r₂.L ∧ r₁.SC = r₂.SC ∧
  r₁.ATRK.SameEntries r₂.ATRK ∧ r₁.ATRV.SameEntries r₂.ATRV ∧ r₁.ATRT.SameEntries r₂.ATRT ∧
  r₁.UATRK.SameEntries r₂.UATRK ∧ r₁.UATRV.SameEntries r₂.UATRV ∧
  r₁.UATRT.SameEntries r₂.UATRT

/-- Two results equal as records with keyed mappings. -/
def Transformed.Equiv (t₁ t₂ : Transformed) : Prop :=
  t₁.Event = t₂.Event ∧ t₁.EventType = t₂.EventType ∧ t₁.AppID = t₂.AppID ∧
  t₁.UserID = t₂.UserID ∧ t₁.MessageID = t₂.MessageID ∧ t₁.PageTitle = t₂.PageTitle ∧
  t₁.PageURL = t₂.PageURL ∧ t₁.BrowserLanguage = t₂.BrowserLanguage ∧
  t₁.ScreenSize = t₂.ScreenSize ∧
  t₁.Attributes.Equiv t₂.Attributes ∧ t₁.Traits.Equiv t₂.Traits

/-- The zero value of `Request`: empty strings and nil maps. -/
def Request.zero : Request :=
  { Ev := "", Et := "", ID := "", UID := "", MID := "", T := "", P := "", L := "", SC := "",
    ATRK := .nil, ATRV := .nil, ATRT := .nil, UATRK := .nil, UATRV := .nil, UATRT := .nil }

/-! ## `transformData` -/

/-- Function `transformData`: the struct literal, then the two `range` loops, each
assigning one entry per visited key. -/
def transformData (req : Request) : Option Transformed := do
  let transformed : Transformed :=
    { Event := req.Ev
      EventType := req.Et
      AppID := req.ID
      UserID := req.UID
      MessageID := req.MID
      PageTitle := req.T
      PageURL := req.P
      BrowserLanguage := req.L
      ScreenSize := req.SC
      Attributes := GoMap.make
      Traits := GoMap.make }
  let transformed ← req.ATRK.entries.foldlM
    (fun (transformed : Transformed) (kv : String × String) => do
      let attrs ← transformed.Attributes.set kv.1 { Value := kv.2, Type_ := req.ATRT.index kv.1 }
      pure { transformed with Attributes := attrs })
    transformed
  let transformed ← req.UATRK.entries.foldlM
    (fun (transformed : Transformed) (kv : String × String) => do
      let traits ← transformed.Traits.set kv.1 { Value := kv.2, Type_ := req.UATRT.index kv.1 }
      pure { transformed with Traits := traits })
    transformed
  return transformed

/-- Request of the first scenario: `ev = click`, `uid = u1`, `atrk = {color: red}`,
`atrt = {color: string}`, every other field absent from the JSON body. -/
def scenario1 : Request :=
  { Request.zero with
    Ev := "click", UID := "u1",
    ATRK := GoMap.ofList [("color", "red")],
    ATRT := GoMap.ofList [("color", "string")] }

/-! ## The environment: JSON, HTTP, the network -/

/-- Go `error` value (non-nil). -/
structure GoError where
  msg : String
deriving DecidableEq, Repr

/-- Response of the downstream endpoint as `http.Post` returns it. -/
structure Response where
  StatusCode : Nat
  Body : String
deriving DecidableEq, Repr

/-- One call `http.Post(url, contentType, body)`. -/
structure PostCall where
  url : String
  contentType : String
  body : String
deriving DecidableEq, Repr

/-- Library and network behaviour the program depends on. -/
structure Env where
  /-- Result of `json.Marshal(data)` for a `Transformed`. -/
  marshal : Transformed → Except GoError String
  /-- Result of `json.Unmarshal(body, &req)` on a zero `Request`. -/
  unmarshal : String → Except GoError Request
  /-- Result of an `http.Post` call, given the calls issued before it. -/
  post : List PostCall → PostCall → Except GoError Response

/-- Line written to standard output. -/
inductive Output where
  /-- Line `fmt.Println("Server listening on :5000")`. -/
  | listening : Output
  /-- Line `fmt.Println(":::::::::::::::::", transformedData)`. -/
  | transformed (transformedData : Transformed) : Output
  /-- Line `fmt.Println("Error sending data:", err)`. -/
  | sendError (err : GoError) : Output

/-- Record of a function call made by the worker. -/
inductive Call where
  | transformData (req : Request) : Call
  | sendData (data : Transformed) (endpoint : String) : Call

/-- Effects observable from outside the worker: the POST calls issued, the
lines printed, and the calls the worker made, each oldest first. -/
structure World where
  net : List PostCall
  stdout : List Output
  calls : List Call

/-- Arguments of the `sendData` calls made so far, oldest first. -/
def World.sends (w : World) : List Transformed :=
  w.calls.filterMap (fun c => match c with
    | .sendData data _ => some data
    | .transformData _ => none)

/-! ## `sendData` -/

/-- Function `sendData`: the returned `error` (`none` is nil) and the POST calls
issued so far. -/
def sendData (env : Env) (data : Transformed) (endpoint : String) (net : List PostCall) :
    Option GoError × List PostCall :=
  match env.marshal data with
  | .error err => (some err, net)
  | .ok jsonData =>
    let call : PostCall := { url := endpoint, contentType := "application/json", body := jsonData }
    match env.post net call with
    | .error err => (some err, net ++ [call])
    | .ok _ => (none, net ++ [call])

/-! ## `worker` -/

/-- Body of the loop `for req := range ch` in `worker`, for the received `req`. -/
def workerIteration (env : Env) (w : World) (req : Request) : Option World := do
  let transformedData ← transformData req
  let w : World :=
    { w with
      calls := w.calls ++ [.transformData req]
      stdout := w.stdout ++ [.transformed transformedData] }
  let (err, net) := sendData env transformedData "https://webhook.site/" w.net
  let w : World :=
    { w with
      calls := w.calls ++ [.sendData transformedData "https://webhook.site/"]
      net := net }
  match err with
  | some err => pure { w with stdout := w.stdout ++ [.sendError err] }
  | none => pure w

/-- Function `worker` run on the sequence of records its channel delivers. The
channel is never closed, so the loop does not end and the deferred
`wg.Done()` never runs; a finite `recs` is a prefix of what the worker
receives. -/
def worker (env : Env) (w : World) (recs : List Request) : Option World :=
  recs.foldlM (workerIteration env) w

/-! ## `main`: the `/submit` handler and the goroutines -/

/-- Response written by the handler; `contentType` is the header the handler
set itself, if any. -/
structure HttpResponse where
  status : Nat
  contentType : Option String
  body : String
deriving DecidableEq, Repr

/-- Library function `http.Error(w, msg, code)`: a plain-text reply, the message followed by a
newline. -/
def httpError (msg : String) (code : Nat) : HttpResponse :=
  { status := code, contentType := some "text/plain; charset=utf-8", body := msg ++ "\n" }

/-- Capacity of `requestChannel`, from `make(chan Request, 10)`. -/
def channelCapacity : Nat := 10

/-- State of the running program. -/
structure System where
  /-- Buffer of `requestChannel`, oldest record first. -/
  requestChannel : List Request
  /-- Goroutines started by the handler that have not yet completed
  `requestChannel <- req`, with the record each one holds. -/
  senders : List Request
  /-- Counter of the `sync.WaitGroup`. -/
  wg : Int
  /-- Effects of the worker. -/
  world : World
  /-- Responses written so far, oldest first. -/
  responses : List HttpResponse
  /-- Records whose channel send has completed, in completion order. -/
  enqueued : List Request
  /-- Records the worker has received, in order. -/
  dequeued : List Request

/-- State once `main` has created the channel, started the worker and printed
its banner. -/
def System.init : System :=
  { requestChannel := [], senders := [], wg := 0,
    world := { net := [], stdout := [.listening], calls := [] },
    responses := [], enqueued := [], dequeued := [] }

/-- Handler registered for `/submit`, run on a request whose body read yields
`rBody`: the response and the state after the handler returns. -/
def submitHandler (env : Env) (rBody : Except GoError String) (s : System) :
    HttpResponse × System :=
  match rBody with
  | .error _ => (httpError "Error reading request body" 400, s)
  | .ok body =>
    match env.unmarshal body with
    | .error _ => (httpError "Error decoding JSON" 400, s)
    | .ok req =>
      let s := { s with wg := s.wg + 1, senders := s.senders ++ [req] }
      ({ status := 200, contentType := none, body := "Request received and processing started" }, s)

/-- Atomic step of one goroutine. -/
inductive Action where
  /-- A request to `/submit` is handled; `rBody` is the outcome of reading its body. -/
  | submit (rBody : Except GoError String) : Action
  /-- The `i`-th pending sender goroutine completes `requestChannel <- req` and exits. -/
  | send (i : Nat) : Action
  /-- The worker receives one record and runs one loop iteration. -/
  | work : Action

/-- Call `wg.Done()`: decrement, panicking on a negative counter. -/
def wgDone (wg : Int) : Option Int :=
  if wg - 1 < 0 then none else some (wg - 1)

/-- One step of the program. An action that is blocked (send on a full buffer,
receive on an empty one) or names no goroutine leaves the state as it is; a
panic is `none`. -/
def System.step (env : Env) (s : System) : Action → Option System
  | .submit rBody =>
    let (resp, s) := submitHandler env rBody s
    some { s with responses := s.responses ++ [resp] }
  | .send i =>
    match s.senders[i]? with
    | none => some s
    | some req =>
      if s.requestChannel.length < channelCapacity then do
        let wg ← wgDone s.wg
        pure { s with
          requestChannel := s.requestChannel ++ [req]
          senders := s.senders.eraseIdx i
          wg := wg
          enqueued := s.enqueued ++ [req] }
      else some s
  | .work =>
    match s.requestChannel with
    | [] => some s
    | req :: rest => do
      let world ← workerIteration env s.world req
      pure { s with requestChannel := rest, world := world, dequeued := s.dequeued ++ [req] }

/-- Execution of a schedule of steps. -/
def System.run (env : Env) (s : System) (acts : List Action) : Option System :=
  acts.foldlM (System.step env) s

/-- What every reachable state satisfies: the records received by the worker,
followed by the buffered ones, are the records sent into the channel, in
order; the buffer respects its capacity; the worker has called `sendData` on
the results of `transformData` for the received records, in order; the
`WaitGroup` counts the pending senders. -/
def System.Inv (s : System) : Prop :=
  s.dequeued ++ s.requestChannel = s.enqueued ∧
  s.requestChannel.length ≤ channelCapacity ∧
  s.world.sends.map some = s.dequeued.map transformData ∧
  s.wg = s.senders.length

/-! ## Sample inputs -/

/-- Request with two attributes and two traits, listed in one order. -/
def orderedA : Request :=
  { Request.zero with
    Ev := "view",
    ATRK := GoMap.ofList [("a", "1"), ("b", "2")],
    ATRT := GoMap.ofList [("b", "int")],
    UATRK := GoMap.ofList [("x", "9"), ("y", "8")] }

/-- The same request with the entries of its mappings listed in another order. -/
def orderedB : Request :=
  { Request.zero with
    Ev := "view",
    ATRK := GoMap.ofList [("b", "2"), ("a", "1")],
    ATRT := GoMap.ofList [("b", "int")],
    UATRK := GoMap.ofList [("y", "8"), ("x", "9")] }

/-- Request with a type declared for a key (`ghost`) that has no value. -/
def typeOnly : Request :=
  { Request.zero with
    ATRK := GoMap.ofList [("a", "1")],
    ATRT := GoMap.ofList [("a", "int"), ("ghost", "string")],
    UATRK := GoMap.ofList [("plan", "pro")],
    UATRT := GoMap.ofList [("plan", "string")] }

/-- Sample environment: the decoder accepts only the empty JSON object, the
encoder always succeeds, and the endpoint refuses every second connection. -/
def sampleEnv : Env :=
  { marshal := fun data => .ok ("event=" ++ data.Event)
    unmarshal := fun body =>
      if body = "\x7b\x7d" then .ok Request.zero else .error { msg := "invalid character" }
    post := fun net _ =>
      if net.length % 2 = 0 then .error { msg := "connection refused" }
      else .ok { StatusCode := 500, Body := "" } }

/-- Sample environment whose decoder accepts every body and stores it in `Ev`. -/
def echoEnv : Env :=
  { sampleEnv with unmarshal := fun body => .ok { Request.zero with Ev := body } }

/-- Schedule: two requests arrive, the second sender runs first, the worker
takes one record, the first sender runs, the worker takes the other record. -/
def sampleSchedule : List Action :=
  [.submit (.ok "A"), .submit (.ok "B"), .work, .send 1, .work, .send 0, .work, .work]

/-- Sample environment whose encoder always fails. -/
def failingMarshalEnv : Env :=
  { sampleEnv with marshal := fun _ => .error { msg := "unsupported value" } }

/-! ## Facts about Go maps -/

namespace GoMap

variable {V : Type}

theorem entries_nodup (m : GoMap V) : (m.entries.map Prod.fst).Nodup := by
  cases m with
  | nil => simp [entries]
  | alloc m =>
    have h := m.nodupKeys
    simpa [entries, List.NodupKeys, List.keys, Function.comp_def] using h

theorem lookup_entries (m : GoMap V) (k : String) : m.entries.lookup k = m.get? k := by
  cases m with
  | nil => simp [entries, get?]
  | alloc m =>
    obtain ⟨l, hl⟩ := m
    simp only [entries, get?, AList.lookup]
    clear hl
    induction l with
    | nil => simp
    | cons e l ih =>
      obtain ⟨a, b⟩ := e
      by_cases h : k = a
      · subst h; simp [List.lookup]
      · have h2 : (k == a) = false := by simpa using h
        simp [List.lookup, h2, List.dlookup_cons_ne l ⟨a, b⟩ h, ih]

theorem get?_make (k : String) : (make : GoMap V).get? k = none := by
  simp [make, get?]

theorem get?_eq_some_iff (m : GoMap V) (k : String) (v : V) :
    m.get? k = some v ↔ (k, v) ∈ m.entries := by
  cases m with
  | nil => simp [entries, get?]
  | alloc m =>
    have h := @AList.mem_lookup_iff String (fun _ => V) _ k v m
    simp only [Option.mem_def] at h
    simp only [get?, entries, h, List.mem_map, Prod.mk.injEq]
    constructor
    · intro hm; exact ⟨⟨k, v⟩, hm, rfl, rfl⟩
    · rintro ⟨⟨a, b⟩, hm, ha, hb⟩
      simp only at ha hb
      subst ha; subst hb; exact hm

theorem mem_keys_iff (m : GoMap V) (k : String) :
    k ∈ m.keys ↔ ∃ v, m.get? k = some v := by
  simp only [keys, List.mem_map, get?_eq_some_iff]
  constructor
  · rintro ⟨⟨a, b⟩, hm, rfl⟩; exact ⟨b, hm⟩
  · rintro ⟨v, hm⟩; exact ⟨(k, v), hm, rfl⟩

theorem sameEntries_of_perm {m₁ m₂ : GoMap V} (h : m₁.entries.Perm m₂.entries) :
    m₁.SameEntries m₂ := by
  intro k
  apply Option.ext
  intro v
  simp only [Option.mem_def, get?_eq_some_iff]
  exact h.mem_iff

theorem entries_eq_nil_of_isNil {m : GoMap V} (h : m.isNil = true) : m.entries = [] := by
  cases m with
  | nil => rfl
  | alloc m => simp [isNil] at h

theorem get?_eq_none_of_isNil {m : GoMap V} (h : m.isNil = true) (k : String) :
    m.get? k = none := by
  cases m with
  | nil => rfl
  | alloc m => simp [isNil] at h

end GoMap

/-- Value under `k` after assigning, in list order, `g key value` to every pair
of a duplicate-free listing. -/
theorem lookup_foldl_insert {W : Type} (g : String → String → W) (k : String) :
    ∀ (l : List (String × String)), (l.map Prod.fst).Nodup →
    ∀ (m : AList (fun _ : String => W)),
      (l.foldl (fun m kv => m.insert kv.1 (g kv.1 kv.2)) m).lookup k =
        match l.lookup k with
        | some v => some (g k v)
        | none => m.lookup k := by
  intro l
  induction l with
  | nil => intro _ m; simp
  | cons e l ih =>
    intro hnd m
    obtain ⟨a, b⟩ := e
    have hnd2 : a ∉ l.map Prod.fst ∧ (l.map Prod.fst).Nodup := by simpa using hnd
    rw [List.foldl_cons, ih hnd2.2]
    by_cases h : k = a
    · subst h
      have hnone : l.lookup k = none := by
        rw [List.lookup_eq_none_iff]
        intro p hp
        have hne : k ≠ p.1 := fun hk => hnd2.1 (hk ▸ List.mem_map_of_mem Prod.fst hp)
        simpa using hne
      simp [List.lookup, hnone, AList.lookup_insert]
    · have h2 : (k == a) = false := by simpa using h
      simp only [List.lookup, h2]
      cases l.lookup k with
      | some v => rfl
      | none => simp [AList.lookup_insert_ne h]

/-- The first loop of `transformData` never panics: it runs on an allocated map. -/
theorem attributes_loop (ty : String → String) :
    ∀ (l : List (String × String)) (t : Transformed) (m : AList (fun _ : String => Attribute)),
      t.Attributes = .alloc m →
      l.foldlM
        (fun (transformed : Transformed) (kv : String × String) => do
          let attrs ← transformed.Attributes.set kv.1 { Value := kv.2, Type_ := ty kv.1 }
          pure { transformed with Attributes := attrs })
        t
      = some { t with
          Attributes := .alloc (l.foldl (fun m kv => m.insert kv.1 { Value := kv.2, Type_ := ty kv.1 }) m) } := by
  intro l
  induction l with
  | nil => intro t m h; simp [← h]
  | cons e l ih =>
    intro t m h
    rw [List.foldlM_cons]
    simp only [h, GoMap.set, Option.some_bind, Option.pure_def, List.foldl_cons]
    exact ih _ _ rfl

/-- The second loop of `transformData` never panics either. -/
theorem traits_loop (ty : String → String) :
    ∀ (l : List (String × String)) (t : Transformed) (m : AList (fun _ : String => Trait)),
      t.Traits = .alloc m →
      l.foldlM
        (fun (transformed : Transformed) (kv : String × String) => do
          let traits ← transformed.Traits.set kv.1 { Value := kv.2, Type_ := ty kv.1 }
          pure { transformed with Traits := traits })
        t
      = some { t with
          Traits := .alloc (l.foldl (fun m kv => m.insert kv.1 { Value := kv.2, Type_ := ty kv.1 }) m) } := by
  intro l
  induction l with
  | nil => intro t m h; simp [← h]
  | cons e l ih =>
    intro t m h
    rw [List.foldlM_cons]
    simp only [h, GoMap.set, Option.some_bind, Option.pure_def, List.foldl_cons]
    exact ih _ _ rfl

/-- Closed form of `transformData`: it returns, and the two mappings are the
allocated maps obtained by the successive assignments. -/
theorem transformData_closed (req : Request) :
    transformData req = some
      { Event := req.Ev
        EventType := req.Et
        AppID := req.ID
        UserID := req.UID
        MessageID := req.MID
        PageTitle := req.T
        PageURL := req.P
        BrowserLanguage := req.L
        ScreenSize := req.SC
        Attributes := .alloc (req.ATRK.entries.foldl
          (fun m kv => m.insert kv.1 { Value := kv.2, Type_ := req.ATRT.index kv.1 }) ∅)
        Traits := .alloc (req.UATRK.entries.foldl
          (fun m kv => m.insert kv.1 { Value := kv.2, Type_ := req.UATRT.index kv.1 }) ∅) } := by
  unfold transformData
  dsimp only
  have hbind : ∀ (x : Transformed) (f : Transformed → Option Transformed),
      (some x >>= f) = f x := fun _ _ => rfl
  rw [attributes_loop req.ATRT.index _ _ ∅ rfl, hbind]
  rw [traits_loop req.UATRT.index _ _ ∅ rfl, hbind]
  rfl

/-- Value of the attributes mapping of the result under every key. -/
theorem attributes_get? (req : Request) (k : String) :
    (GoMap.alloc (req.ATRK.entries.foldl
      (fun m kv => m.insert kv.1 ({ Value := kv.2, Type_ := req.ATRT.index kv.1 } : Attribute))
      ∅)).get? k =
    match req.ATRK.get? k with
    | some v => some { Value := v, Type_ := req.ATRT.index k }
    | none => none := by
  have h := lookup_foldl_insert (fun key value => ({ Value := value, Type_ := req.ATRT.index key } : Attribute))
    k req.ATRK.entries req.ATRK.entries_nodup ∅
  show AList.lookup k _ = _
  rw [h, GoMap.lookup_entries]
  cases req.ATRK.get? k <;> simp

/-- Value of the traits mapping of the result under every key. -/
theorem traits_get? (req : Request) (k : String) :
    (GoMap.alloc (req.UATRK.entries.foldl
      (fun m kv => m.insert kv.1 ({ Value := kv.2, Type_ := req.UATRT.index kv.1 } : Trait))
      ∅)).get? k =
    match req.UATRK.get? k with
    | some v => some { Value := v, Type_ := req.UATRT.index k }
    | none => none := by
  have h := lookup_foldl_insert (fun key value => ({ Value := value, Type_ := req.UATRT.index key } : Trait))
    k req.UATRK.entries req.UATRK.entries_nodup ∅
  show AList.lookup k _ = _
  rw [h, GoMap.lookup_entries]
  cases req.UATRK.get? k <;> simp

theorem GoMap.index_congr {m₁ m₂ : GoMap String} (h : m₁.SameEntries m₂) (k : String) :
    m₁.index k = m₂.index k := by
  simp only [GoMap.index, h k]

/-! ## Properties of `transformData` -/

/-- C1: for every key `k` present in `req.ATRK`, the attributes of the result
contain `k`, with Value `req.ATRK[k]` and with Type `req.ATRT[k]` when `k` is
present in `req.ATRT` and the empty string otherwise, also when `req.ATRT` is
nil. -/
theorem transformData_attributes_roundtrip (req : Request) (k v : String)
    (h : req.ATRK.get? k = some v) :
    ∃ t a, transformData req = some t ∧ t.Attributes.get? k = some a ∧ a.Value = v ∧
      (∀ ty, req.ATRT.get? k = some ty → a.Type_ = ty) ∧
      (req.ATRT.get? k = none → a.Type_ = "") ∧
      (req.ATRT.isNil = true → a.Type_ = "") := by
  refine ⟨_, ⟨v, req.ATRT.index k⟩, transformData_closed req, ?_, rfl, ?_, ?_, ?_⟩
  · show (GoMap.alloc _).get? k = _
    rw [attributes_get?, h]
  · intro ty hty
    simp [GoMap.index, hty]
  · intro hnone
    simp [GoMap.index, hnone]
  · intro hnil
    simp [GoMap.index, GoMap.get?_eq_none_of_isNil hnil]

/-- Scenario 1 instance of C1: `ATRK = {color: red}`, `ATRT = {color: string}`
gives `Attributes = {color: {red, string}}`. -/
theorem transformData_attributes_roundtrip_witness :
    scenario1.ATRK.get? "color" = some "red" ∧
    (∃ t a, transformData scenario1 = some t ∧ t.Attributes.get? "color" = some a ∧
      a.Value = "red" ∧
      (∀ ty, scenario1.ATRT.get? "color" = some ty → a.Type_ = ty) ∧
      (scenario1.ATRT.get? "color" = none → a.Type_ = "") ∧
      (scenario1.ATRT.isNil = true → a.Type_ = "")) ∧
    (transformData scenario1).map (fun t => t.Attributes.entries) =
      some [("color", { Value := "red", Type_ := "string" })] :=
  ⟨by decide, transformData_attributes_roundtrip scenario1 "color" "red" (by decide), by decide⟩

/-- C2: a key appears in the attributes of the result if and only if it is a
key of `req.ATRK`; a key present only in `req.ATRT` does not appear; when
`req.ATRK` is empty or nil the attributes mapping is the empty allocated map. -/
theorem transformData_attributes_keys (req : Request) :
    ∃ t, transformData req = some t ∧
      (∀ k, k ∈ t.Attributes.keys ↔ k ∈ req.ATRK.keys) ∧
      (∀ k, k ∈ req.ATRT.keys → k ∉ req.ATRK.keys →
        k ∉ t.Attributes.keys ∧ t.Attributes.get? k = none) ∧
      (req.ATRK.entries = [] → t.Attributes = GoMap.make) ∧
      (req.ATRK.isNil = true → t.Attributes = GoMap.make) := by
  have hkeys : ∀ k, k ∈ (GoMap.alloc (req.ATRK.entries.foldl
      (fun m kv => m.insert kv.1 ({ Value := kv.2, Type_ := req.ATRT.index kv.1 } : Attribute))
      ∅)).keys ↔ k ∈ req.ATRK.keys := by
    intro k
    rw [GoMap.mem_keys_iff, GoMap.mem_keys_iff, attributes_get?]
    cases req.ATRK.get? k <;> simp
  have hempty : req.ATRK.entries = [] → (GoMap.alloc (req.ATRK.entries.foldl
      (fun m kv => m.insert kv.1 ({ Value := kv.2, Type_ := req.ATRT.index kv.1 } : Attribute))
      ∅)) = GoMap.make := by
    intro he
    rw [he]; rfl
  refine ⟨_, transformData_closed req, hkeys, ?_, hempty, ?_⟩
  · intro k _ hk
    have hk2 := mt (hkeys k).1 hk
    refine ⟨hk2, ?_⟩
    rw [GoMap.mem_keys_iff] at hk2
    cases hg : GoMap.get? _ k with
    | none => rfl
    | some a => exact absurd ⟨a, hg⟩ hk2
  · intro hnil
    exact hempty (GoMap.entries_eq_nil_of_isNil hnil)

/-- Instance of C2: the key `ghost`, typed but without value, is not in the
output, and a request without attribute values yields the empty mapping. -/
theorem transformData_attributes_keys_witness :
    ("ghost" ∈ typeOnly.ATRT.keys ∧ "ghost" ∉ typeOnly.ATRK.keys ∧
      Request.zero.ATRK.isNil = true) ∧
    (∃ t, transformData typeOnly = some t ∧ "ghost" ∉ t.Attributes.keys ∧
      t.Attributes.get? "ghost" = none ∧ ("a" ∈ t.Attributes.keys)) ∧
    (∃ t, transformData Request.zero = some t ∧ t.Attributes = GoMap.make) := by
  have hin : "ghost" ∈ typeOnly.ATRT.keys := by decide
  have hout : "ghost" ∉ typeOnly.ATRK.keys := by decide
  have hnil : Request.zero.ATRK.isNil = true := rfl
  refine ⟨⟨hin, hout, hnil⟩, ?_, ?_⟩
  · obtain ⟨t, ht, hk, honly, _, _⟩ := transformData_attributes_keys typeOnly
    exact ⟨t, ht, (honly "ghost" hin hout).1, (honly "ghost" hin hout).2,
      (hk "a").2 (by decide)⟩
  · obtain ⟨t, ht, _, _, _, hn⟩ := transformData_attributes_keys Request.zero
    exact ⟨t, ht, hn hnil⟩

/-- C3: the traits of the result are built from `req.UATRK` and `req.UATRT` by
the rule used for attributes: same key set as `req.UATRK`, Value
`req.UATRK[k]`, Type `req.UATRT[k]` if present and the empty string otherwise;
the traits do not depend on `ATRK`/`ATRT` and the attributes do not depend on
`UATRK`/`UATRT`. -/
theorem transformData_traits (req : Request) :
    ∃ t, transformData req = some t ∧
      (∀ k, k ∈ t.Traits.keys ↔ k ∈ req.UATRK.keys) ∧
      (∀ k v, req.UATRK.get? k = some v →
        ∃ a, t.Traits.get? k = some a ∧ a.Value = v ∧
          (∀ ty, req.UATRT.get? k = some ty → a.Type_ = ty) ∧
          (req.UATRT.get? k = none → a.Type_ = "")) ∧
      (∀ atrk atrt,
        (transformData { req with ATRK := atrk, ATRT := atrt }).map (fun r => r.Traits) =
          some t.Traits) ∧
      (∀ uatrk uatrt,
        (transformData { req with UATRK := uatrk, UATRT := uatrt }).map
          (fun r => r.Attributes) = some t.Attributes) := by
  refine ⟨_, transformData_closed req, ?_, ?_, ?_, ?_⟩
  · intro k
    show k ∈ (GoMap.alloc _).keys ↔ _
    rw [GoMap.mem_keys_iff, GoMap.mem_keys_iff, traits_get?]
    cases req.UATRK.get? k <;> simp
  · intro k v h
    refine ⟨⟨v, req.UATRT.index k⟩, ?_, rfl, ?_, ?_⟩
    · show (GoMap.alloc _).get? k = _
      rw [traits_get?, h]
    · intro ty hty
      simp [GoMap.index, hty]
    · intro hnone
      simp [GoMap.index, hnone]
  · intro atrk atrt
    rw [transformData_closed]
    rfl
  · intro uatrk uatrt
    rw [transformData_closed]
    rfl

/-- Instance of C3: the trait `plan` of the sample request. -/
theorem transformData_traits_witness :
    typeOnly.UATRK.get? "plan" = some "pro" ∧
    ∃ t a, transformData typeOnly = some t ∧ t.Traits.get? "plan" = some a ∧
      a.Value = "pro" ∧ a.Type_ = "string" := by
  have hval : typeOnly.UATRK.get? "plan" = some "pro" := by decide
  obtain ⟨t, ht, _, hentry, _, _⟩ := transformData_traits typeOnly
  obtain ⟨a, ha, hv, hty, _⟩ := hentry "plan" "pro" hval
  exact ⟨hval, t, a, ht, ha, hv, hty "string" (by decide)⟩

/-- C4: the nine scalar fields are copied unchanged, one to one, whatever
their value (so an empty source field gives an empty destination field). -/
theorem transformData_scalars (req : Request) :
    ∃ t, transformData req = some t ∧
      t.Event = req.Ev ∧ t.EventType = req.Et ∧ t.AppID = req.ID ∧ t.UserID = req.UID ∧
      t.MessageID = req.MID ∧ t.PageTitle = req.T ∧ t.PageURL = req.P ∧
      t.BrowserLanguage = req.L ∧ t.ScreenSize = req.SC :=
  ⟨_, transformData_closed req, rfl, rfl, rfl, rfl, rfl, rfl, rfl, rfl, rfl⟩

/-- Requests with the same entries and scalars have results equal as records
with keyed mappings. -/
theorem transformData_congr (r₁ r₂ : Request) (h : Request.Equiv r₁ r₂) :
    ∃ t₁ t₂, transformData r₁ = some t₁ ∧ transformData r₂ = some t₂ ∧
      Transformed.Equiv t₁ t₂ := by
  obtain ⟨h1, h2, h3, h4, h5, h6, h7, h8, h9, hk, _, ht, huk, _, hut⟩ := h
  refine ⟨_, _, transformData_closed r₁, transformData_closed r₂,
    h1, h2, h3, h4, h5, h6, h7, h8, h9, ⟨rfl, ?_⟩, ⟨rfl, ?_⟩⟩
  · intro k
    show (GoMap.alloc _).get? k = (GoMap.alloc _).get? k
    rw [attributes_get?, attributes_get?, hk k, GoMap.index_congr ht k]
  · intro k
    show (GoMap.alloc _).get? k = (GoMap.alloc _).get? k
    rw [traits_get?, traits_get?, huk k, GoMap.index_congr hut k]

/-- C5: `transformData` returns a result for every request (nil and empty
mappings included), and requests that are equal as records with keyed mappings
give results that are equal as records with keyed mappings, whatever the order
in which the entries of the mappings are visited; in particular for any
reordering of the entries of `ATRK` and `UATRK`. -/
theorem transformData_total_deterministic :
    (∀ req, ∃ t, transformData req = some t) ∧
    (∀ r₁ r₂, Request.Equiv r₁ r₂ →
      ∃ t₁ t₂, transformData r₁ = some t₁ ∧ transformData r₂ = some t₂ ∧
        Transformed.Equiv t₁ t₂) ∧
    (∀ (req : Request) (atrk uatrk : GoMap String),
      atrk.entries.Perm req.ATRK.entries → uatrk.entries.Perm req.UATRK.entries →
      ∃ t₁ t₂, transformData req = some t₁ ∧
        transformData { req with ATRK := atrk, UATRK := uatrk } = some t₂ ∧
        Transformed.Equiv t₁ t₂) := by
  refine ⟨fun req => ⟨_, transformData_closed req⟩, transformData_congr, ?_⟩
  intro req atrk uatrk hk huk
  apply transformData_congr
  exact ⟨rfl, rfl, rfl, rfl, rfl, rfl, rfl, rfl, rfl,
    GoMap.sameEntries_of_perm hk.symm, fun _ => rfl, fun _ => rfl,
    GoMap.sameEntries_of_perm huk.symm, fun _ => rfl, fun _ => rfl⟩

/-- Instance of C5: two listings of the same entries in different orders. -/
theorem transformData_total_deterministic_witness :
    (orderedB.ATRK.entries.Perm orderedA.ATRK.entries ∧
      orderedB.UATRK.entries.Perm orderedA.UATRK.entries ∧
      orderedB.ATRK.entries ≠ orderedA.ATRK.entries) ∧
    ∃ t₁ t₂, transformData orderedA = some t₁ ∧ transformData orderedB = some t₂ ∧
      Transformed.Equiv t₁ t₂ := by
  have hk : orderedB.ATRK.entries.Perm orderedA.ATRK.entries := by decide
  have huk : orderedB.UATRK.entries.Perm orderedA.UATRK.entries := by decide
  exact ⟨⟨hk, huk, by decide⟩,
    transformData_total_deterministic.2.2 orderedA orderedB.ATRK orderedB.UATRK hk huk⟩

/-- C10: two requests that agree on every field except `ATRV` and `UATRV` have
the same result; the Value of each entry is read from `ATRK` and `UATRK`. -/
theorem transformData_ignores_ATRV (r₁ r₂ : Request)
    (hEv : r₁.Ev = r₂.Ev) (hEt : r₁.Et = r₂.Et) (hID : r₁.ID = r₂.ID) (hUID : r₁.UID = r₂.UID)
    (hMID : r₁.MID = r₂.MID) (hT : r₁.T = r₂.T) (hP : r₁.P = r₂.P) (hL : r₁.L = r₂.L)
    (hSC : r₁.SC = r₂.SC) (hATRK : r₁.ATRK = r₂.ATRK) (hATRT : r₁.ATRT = r₂.ATRT)
    (hUATRK : r₁.UATRK = r₂.UATRK) (hUATRT : r₁.UATRT = r₂.UATRT) :
    transformData r₁ = transformData r₂ ∧
    ∃ t, transformData r₁ = some t ∧
      (∀ k, (t.Attributes.get? k).map (fun a => a.Value) = r₁.ATRK.get? k) ∧
      (∀ k, (t.Traits.get? k).map (fun a => a.Value) = r₁.UATRK.get? k) := by
  refine ⟨?_, _, transformData_closed r₁, ?_, ?_⟩
  · rw [transformData_closed, transformData_closed, hEv, hEt, hID, hUID, hMID, hT, hP, hL, hSC,
      hATRK, hATRT, hUATRK, hUATRT]
  · intro k
    show ((GoMap.alloc _).get? k).map _ = _
    rw [attributes_get?]
    cases r₁.ATRK.get? k <;> rfl
  · intro k
    show ((GoMap.alloc _).get? k).map _ = _
    rw [traits_get?]
    cases r₁.UATRK.get? k <;> rfl

/-- Instance of C10: the first scenario with and without `atrv` / `uatrv`. -/
theorem transformData_ignores_ATRV_witness :
    ({ scenario1 with ATRV := GoMap.ofList [("color", "blue")] } : Request).ATRV.get? "color" ≠
      scenario1.ATRV.get? "color" ∧
    (transformData scenario1 =
        transformData { scenario1 with
          ATRV := GoMap.ofList [("color", "blue")], UATRV := GoMap.make } ∧
      ∃ t, transformData scenario1 = some t ∧
        (∀ k, (t.Attributes.get? k).map (fun a => a.Value) = scenario1.ATRK.get? k) ∧
        (∀ k, (t.Traits.get? k).map (fun a => a.Value) = scenario1.UATRK.get? k)) :=
  ⟨by decide,
    transformData_ignores_ATRV scenario1
      { scenario1 with ATRV := GoMap.ofList [("color", "blue")], UATRV := GoMap.make }
      rfl rfl rfl rfl rfl rfl rfl rfl rfl rfl rfl rfl rfl⟩

/-! ## Properties of `sendData` -/

/-- C9: `sendData` returns an error exactly when serialization fails or the
POST returns a transport error; when the POST returns a response the result is
nil whatever the response (hence whatever its status code); when serialization
fails no POST is issued; otherwise exactly one is. -/
theorem sendData_error_iff (env : Env) (data : Transformed) (endpoint : String)
    (net : List PostCall) :
    ((sendData env data endpoint net).1 ≠ none ↔
      (∃ e, env.marshal data = .error e) ∨
      (∃ j e, env.marshal data = .ok j ∧
        env.post net { url := endpoint, contentType := "application/json", body := j } =
          .error e)) ∧
    (∀ j resp, env.marshal data = .ok j →
      env.post net { url := endpoint, contentType := "application/json", body := j } =
        .ok resp →
      sendData env data endpoint net =
        (none, net ++ [{ url := endpoint, contentType := "application/json", body := j }])) ∧
    (∀ j e, env.marshal data = .ok j →
      env.post net { url := endpoint, contentType := "application/json", body := j } =
        .error e →
      sendData env data endpoint net =
        (some e, net ++ [{ url := endpoint, contentType := "application/json", body := j }])) ∧
    (∀ e, env.marshal data = .error e → sendData env data endpoint net = (some e, net)) ∧
    (∀ f : Nat → Nat,
      sendData
        { env with post := fun n c =>
            (env.post n c).map (fun r => { r with StatusCode := f r.StatusCode }) }
        data endpoint net = sendData env data endpoint net) := by
  refine ⟨?_, ?_, ?_, ?_, ?_⟩
  · unfold sendData
    cases hm : env.marshal data with
    | error e => simp
    | ok j =>
      simp only
      cases hp : env.post net { url := endpoint, contentType := "application/json", body := j } with
      | error e => simp [hp]
      | ok r => simp [hp]
  · intro j resp hm hp
    simp only [sendData, hm, hp]
  · intro j e hm hp
    simp only [sendData, hm, hp]
  · intro e hm
    simp only [sendData, hm]
  · intro f
    unfold sendData
    cases hm : env.marshal data with
    | error e => rfl
    | ok j =>
      simp only
      cases hp : env.post net { url := endpoint, contentType := "application/json", body := j } with
      | error e => simp [Except.map]
      | ok r => simp [Except.map]

/-- Instance of C9: a delivered POST answered with status 500 returns nil, a
refused connection returns the error, and a failed serialization issues no
POST. -/
theorem sendData_error_iff_witness :
    (∃ t, transformData scenario1 = some t ∧
      sendData sampleEnv t "https://webhook.site/"
          [{ url := "u", contentType := "c", body := "b" }] =
        (none,
          [{ url := "u", contentType := "c", body := "b" },
           { url := "https://webhook.site/", contentType := "application/json", body := "event=click" }]) ∧
      sendData sampleEnv t "https://webhook.site/" [] =
        (some { msg := "connection refused" },
          [{ url := "https://webhook.site/", contentType := "application/json", body := "event=click" }]) ∧
      sendData failingMarshalEnv t "https://webhook.site/" [] =
        (some { msg := "unsupported value" }, [])) := by
  obtain ⟨t, ht⟩ : ∃ t, transformData scenario1 = some t := ⟨_, rfl⟩
  have hEvent : t.Event = "click" := by
    have h := transformData_closed scenario1
    rw [ht] at h
    injection h with h
    rw [h]; rfl
  have hm : sampleEnv.marshal t = .ok "event=click" := by
    show Except.ok ("event=" ++ t.Event) = _
    rw [hEvent]; rfl
  refine ⟨t, ht, ?_, ?_, ?_⟩
  · exact (sendData_error_iff sampleEnv t "https://webhook.site/"
      [{ url := "u", contentType := "c", body := "b" }]).2.1 "event=click"
      { StatusCode := 500, Body := "" } hm rfl
  · exact (sendData_error_iff sampleEnv t "https://webhook.site/" []).2.2.1 "event=click"
      { msg := "connection refused" } hm rfl
  · exact (sendData_error_iff failingMarshalEnv t "https://webhook.site/" []).2.2.2.1
      { msg := "unsupported value" } rfl

/-! ## Properties of `worker` -/

/-- One loop iteration always completes, and its effects are: the record is
transformed, the result printed, `sendData` called once on it, and its error,
if any, printed. -/
theorem workerIteration_closed (env : Env) (w : World) (req : Request) :
    ∃ t, transformData req = some t ∧
      workerIteration env w req = some
        { net := (sendData env t "https://webhook.site/" w.net).2
          stdout := w.stdout ++ [.transformed t] ++
            (match (sendData env t "https://webhook.site/" w.net).1 with
              | some err => [.sendError err]
              | none => [])
          calls := w.calls ++ [.transformData req] ++ [.sendData t "https://webhook.site/"] } := by
  obtain ⟨t, ht⟩ : ∃ t, transformData req = some t := ⟨_, transformData_closed req⟩
  refine ⟨t, ht, ?_⟩
  have hbind : ∀ (x : Transformed) (f : Transformed → Option World),
      (some x >>= f) = f x := fun _ _ => rfl
  unfold workerIteration
  rw [ht, hbind]
  dsimp only
  rcases sendData env t "https://webhook.site/" w.net with ⟨err, net⟩
  cases err with
  | none => simp
  | some e => simp

theorem World.sends_append (w : World) (cs : List Call) :
    ({ w with calls := w.calls ++ cs } : World).sends =
      w.sends ++ cs.filterMap (fun c => match c with
        | .sendData data _ => some data
        | .transformData _ => none) := by
  simp [World.sends, List.filterMap_append]

/-- The loop of `worker` on a sequence of records: it completes, and it has
called `transformData` and then `sendData` once per record, in order. -/
theorem worker_closed (env : Env) :
    ∀ (recs : List Request) (w : World),
      ∃ w' ts, worker env w recs = some w' ∧ recs.map transformData = ts.map some ∧
        w'.calls = w.calls ++ (recs.zip ts).flatMap
          (fun p => [Call.transformData p.1, Call.sendData p.2 "https://webhook.site/"]) ∧
        w'.sends = w.sends ++ ts := by
  intro recs
  induction recs with
  | nil => intro w; exact ⟨w, [], rfl, rfl, by simp, by simp⟩
  | cons r rest ih =>
    intro w
    obtain ⟨t, ht, hit⟩ := workerIteration_closed env w r
    obtain ⟨w', ts, hw, hts, hcalls, hsends⟩ := ih
      { net := (sendData env t "https://webhook.site/" w.net).2
        stdout := w.stdout ++ [.transformed t] ++
          (match (sendData env t "https://webhook.site/" w.net).1 with
            | some err => [.sendError err]
            | none => [])
        calls := w.calls ++ [.transformData r] ++ [.sendData t "https://webhook.site/"] }
    refine ⟨w', t :: ts, ?_, ?_, ?_, ?_⟩
    · unfold worker at hw ⊢
      rw [List.foldlM_cons, hit]
      exact hw
    · simp [ht, hts]
    · rw [hcalls]
      simp
    · rw [hsends]
      simp [World.sends, List.filterMap_append]

/-- One loop iteration completes and adds exactly one `sendData` call, on the
transformed record. -/
theorem workerIteration_sends (env : Env) (w : World) (req : Request) :
    ∃ t world, transformData req = some t ∧ workerIteration env w req = some world ∧
      world.sends = w.sends ++ [t] := by
  obtain ⟨t, ht, hit⟩ := workerIteration_closed env w req
  refine ⟨t, _, ht, hit, ?_⟩
  simp [World.sends, List.filterMap_append]

/-- The worker step on a non-empty buffer: it takes the oldest record and runs
one iteration on it. -/
theorem System.step_work_cons (env : Env) (s : System) (r : Request) (rest : List Request)
    (hch : s.requestChannel = r :: rest) :
    ∃ t world, transformData r = some t ∧ world.sends = s.world.sends ++ [t] ∧
      System.step env s .work =
        some { s with requestChannel := rest, world := world, dequeued := s.dequeued ++ [r] } := by
  obtain ⟨t, world, ht, hit, hsends⟩ := workerIteration_sends env s.world r
  refine ⟨t, world, ht, hsends, ?_⟩
  simp only [System.step, hch, hit]
  rfl

/-- C6: for every sequence of records delivered to the worker and every
behaviour of the environment (so every assignment of delivery outcomes), the
loop completes having called `transformData` and then `sendData` exactly once
per record, in order; an iteration whose delivery fails only prints the error
and the next record is processed; the worker step puts nothing back into the
channel and starts no sender. -/
theorem worker_processes_every_record (env : Env) (w : World) (recs : List Request) :
    (∃ w' ts, worker env w recs = some w' ∧ recs.map transformData = ts.map some ∧
      w'.calls = w.calls ++ (recs.zip ts).flatMap
        (fun p => [Call.transformData p.1, Call.sendData p.2 "https://webhook.site/"]) ∧
      w'.sends = w.sends ++ ts ∧
      w'.sends.length = w.sends.length + recs.length) ∧
    (∀ (w₀ : World) (req : Request), ∃ t, transformData req = some t ∧
      workerIteration env w₀ req = some
        { net := (sendData env t "https://webhook.site/" w₀.net).2
          stdout := w₀.stdout ++ [.transformed t] ++
            (match (sendData env t "https://webhook.site/" w₀.net).1 with
              | some err => [.sendError err]
              | none => [])
          calls :=
            w₀.calls ++ [.transformData req] ++ [.sendData t "https://webhook.site/"] }) ∧
    (∀ (req : Request),
      worker env w (recs ++ [req]) =
        (worker env w recs).bind (fun w₁ => workerIteration env w₁ req)) ∧
    (∀ (s : System), ∃ s', System.step env s .work = some s' ∧
      s'.requestChannel = s.requestChannel.tail ∧ s'.senders = s.senders ∧
      s'.enqueued = s.enqueued) := by
  refine ⟨?_, workerIteration_closed env, ?_, ?_⟩
  · obtain ⟨w', ts, hw, hts, hcalls, hsends⟩ := worker_closed env recs w
    refine ⟨w', ts, hw, hts, hcalls, hsends, ?_⟩
    have hlen : ts.length = recs.length := by
      have := congrArg List.length hts
      simpa using this.symm
    rw [hsends, List.length_append, hlen]
  · intro req
    unfold worker
    rw [List.foldlM_append]
    cases List.foldlM (workerIteration env) w recs with
    | none => rfl
    | some w₁ =>
      show List.foldlM (workerIteration env) w₁ [req] = workerIteration env w₁ req
      rw [List.foldlM_cons]
      cases workerIteration env w₁ req <;> rfl
  · intro s
    cases hch : s.requestChannel with
    | nil => exact ⟨s, by simp [System.step, hch], by simp [hch], rfl, rfl⟩
    | cons r rest =>
      obtain ⟨t, world, _, _, hstep⟩ := System.step_work_cons env s r rest hch
      exact ⟨_, hstep, rfl, rfl, rfl⟩

/-! ## Properties of the `/submit` handler -/

/-- C7: the handler starts a sender goroutine for a record if and only if the
body is read and decodes into a `Request`. When reading or decoding fails it
answers 400 with a plain-text diagnostic and leaves the whole state, channel
included, unchanged. When decoding succeeds it starts exactly one sender, for
the decoded record, and answers 200 with the body "Request received and
processing started"; the channel buffer and the worker effects are as before
when it returns, whatever the state of the channel. -/
theorem submitHandler_enqueue_iff (env : Env) (rBody : Except GoError String) (s : System) :
    (∀ e, rBody = .error e →
      submitHandler env rBody s =
        ({ status := 400, contentType := some "text/plain; charset=utf-8",
           body := "Error reading request body\n" }, s)) ∧
    (∀ body e, rBody = .ok body → env.unmarshal body = .error e →
      submitHandler env rBody s =
        ({ status := 400, contentType := some "text/plain; charset=utf-8",
           body := "Error decoding JSON\n" }, s)) ∧
    (∀ body req, rBody = .ok body → env.unmarshal body = .ok req →
      submitHandler env rBody s =
        ({ status := 200, contentType := none,
           body := "Request received and processing started" },
         { s with wg := s.wg + 1, senders := s.senders ++ [req] })) ∧
    ((submitHandler env rBody s).2.senders.length = s.senders.length + 1 ↔
      ∃ body req, rBody = .ok body ∧ env.unmarshal body = .ok req) ∧
    ((submitHandler env rBody s).1.status = 200 ↔
      ∃ body req, rBody = .ok body ∧ env.unmarshal body = .ok req) ∧
    (submitHandler env rBody s).2.requestChannel = s.requestChannel ∧
    (submitHandler env rBody s).2.enqueued = s.enqueued ∧
    (submitHandler env rBody s).2.dequeued = s.dequeued ∧
    (submitHandler env rBody s).2.world = s.world := by
  cases rBody with
  | error e0 =>
    simp [submitHandler, httpError]
  | ok body0 =>
    cases hu : env.unmarshal body0 with
    | error e1 =>
      simp [submitHandler, httpError, hu]
      rintro body req rfl h
      rw [hu] at h
      cases h
    | ok req0 =>
      simp [submitHandler, hu]
      refine ⟨?_, ?_⟩
      · rintro body e rfl h
        rw [hu] at h
        cases h
      · rintro body req rfl h
        rw [hu] at h
        injection h

/-- Instance of C7: the body `{not json` is rejected with 400 and the state is
unchanged; the body `{}` is accepted with 200 and one sender is started. -/
theorem submitHandler_enqueue_iff_witness :
    sampleEnv.unmarshal "\x7bnot json" = .error { msg := "invalid character" } ∧
    sampleEnv.unmarshal "\x7b\x7d" = .ok Request.zero ∧
    submitHandler sampleEnv (.ok "\x7bnot json") System.init =
      ({ status := 400, contentType := some "text/plain; charset=utf-8",
         body := "Error decoding JSON\n" }, System.init) ∧
    submitHandler sampleEnv (.ok "\x7b\x7d") System.init =
      ({ status := 200, contentType := none,
         body := "Request received and processing started" },
       { System.init with wg := 1, senders := [Request.zero] }) :=
  ⟨rfl, rfl,
    (submitHandler_enqueue_iff sampleEnv (.ok "\x7bnot json") System.init).2.1
      "\x7bnot json" { msg := "invalid character" } rfl rfl,
    (submitHandler_enqueue_iff sampleEnv (.ok "\x7b\x7d") System.init).2.2.1
      "\x7b\x7d" Request.zero rfl rfl⟩

/-! ## Properties of the channel and the schedule -/

theorem System.init_inv : System.init.Inv := by
  refine ⟨rfl, by simp [System.init], rfl, rfl⟩

/-- Every step from a state satisfying the invariant completes, in a state
satisfying the invariant. -/
theorem System.step_inv (env : Env) (s : System) (a : Action) (h : s.Inv) :
    ∃ s', System.step env s a = some s' ∧ s'.Inv := by
  obtain ⟨hq, hcap, hsent, hwg⟩ := h
  cases a with
  | submit rBody =>
    refine ⟨_, rfl, ?_⟩
    cases rBody with
    | error e => exact ⟨hq, hcap, hsent, hwg⟩
    | ok body =>
      cases hu : env.unmarshal body with
      | error e => simp only [submitHandler, hu]; exact ⟨hq, hcap, hsent, hwg⟩
      | ok req =>
        simp only [submitHandler, hu]
        refine ⟨hq, hcap, hsent, ?_⟩
        simp [hwg]
  | send i =>
    cases hi : s.senders[i]? with
    | none => exact ⟨s, by simp [System.step, hi], hq, hcap, hsent, hwg⟩
    | some req =>
      by_cases hfull : s.requestChannel.length < channelCapacity
      · have hilt : i < s.senders.length := by
          rcases Nat.lt_or_ge i s.senders.length with h | h
          · exact h
          · rw [List.getElem?_eq_none h] at hi; cases hi
        have hdone : wgDone s.wg = some (s.wg - 1) := by
          unfold wgDone
          have : ¬ (s.wg - 1 < 0) := by rw [hwg]; omega
          simp [this]
        refine ⟨{ s with
            requestChannel := s.requestChannel ++ [req]
            senders := s.senders.eraseIdx i
            wg := s.wg - 1
            enqueued := s.enqueued ++ [req] }, ?_, ?_, ?_, hsent, ?_⟩
        · simp only [System.step, hi, hfull, if_true, hdone]
          rfl
        · show s.dequeued ++ (s.requestChannel ++ [req]) = s.enqueued ++ [req]
          rw [← List.append_assoc, hq]
        · show (s.requestChannel ++ [req]).length ≤ channelCapacity
          rw [List.length_append, List.length_singleton]
          omega
        · show s.wg - 1 = ((s.senders.eraseIdx i).length : Int)
          rw [List.length_eraseIdx, if_pos hilt, hwg]
          omega
      · exact ⟨s, by simp [System.step, hi, hfull], hq, hcap, hsent, hwg⟩
  | work =>
    cases hch : s.requestChannel with
    | nil => exact ⟨s, by simp [System.step, hch], hq, hcap, hsent, hwg⟩
    | cons r rest =>
      obtain ⟨t, world, ht, hsends, hstep⟩ := System.step_work_cons env s r rest hch
      refine ⟨_, hstep, ?_, ?_, ?_, hwg⟩
      · show (s.dequeued ++ [r]) ++ rest = s.enqueued
        rw [List.append_assoc, ← hq, hch]
        rfl
      · show rest.length ≤ channelCapacity
        rw [hch] at hcap
        exact Nat.le_of_succ_le hcap
      · show world.sends.map some = (s.dequeued ++ [r]).map transformData
        rw [hsends, List.map_append, List.map_append, hsent]
        simp [ht]

/-- Every schedule from a state satisfying the invariant completes, in a state
satisfying the invariant. -/
theorem System.run_inv (env : Env) :
    ∀ (acts : List Action) (s : System), s.Inv →
      ∃ s', System.run env s acts = some s' ∧ s'.Inv := by
  intro acts
  induction acts with
  | nil => intro s h; exact ⟨s, rfl, h⟩
  | cons a acts ih =>
    intro s h
    obtain ⟨s₁, hs₁, hinv₁⟩ := System.step_inv env s a h
    obtain ⟨s', hs', hinv'⟩ := ih s₁ hinv₁
    refine ⟨s', ?_, hinv'⟩
    unfold System.run at hs' ⊢
    rw [List.foldlM_cons, hs₁]
    exact hs'

/-- C8: with `requestChannel` a FIFO buffer of capacity 10 and the worker its
only receiver, after every schedule the program has not panicked and: the
records received by the worker followed by the buffered ones are the records
sent into the channel, in order; the buffer holds at most 10 records; the
arguments of the worker's `sendData` calls are `transformData` of the received
records, in order, so with the buffered records still to come they are
`transformData` mapped over the enqueued records; and when record `A` was
enqueued before record `B` and `B` has been received, `A` was received at the
earlier position. -/
theorem worker_fifo (env : Env) (acts : List Action) :
    ∃ s, System.run env System.init acts = some s ∧
      s.dequeued ++ s.requestChannel = s.enqueued ∧
      s.requestChannel.length ≤ 10 ∧
      s.world.sends.map some = s.dequeued.map transformData ∧
      s.world.sends.map some ++ s.requestChannel.map transformData =
        s.enqueued.map transformData ∧
      (s.requestChannel = [] → s.world.sends.map some = s.enqueued.map transformData) ∧
      (∀ i j A B, i < j → s.enqueued[i]? = some A → s.enqueued[j]? = some B →
        j < s.dequeued.length → s.dequeued[i]? = some A ∧ s.dequeued[j]? = some B) := by
  obtain ⟨s, hrun, hq, hcap, hsent, _⟩ := System.run_inv env acts System.init System.init_inv
  refine ⟨s, hrun, hq, hcap, hsent, ?_, ?_, ?_⟩
  · rw [hsent, ← List.map_append, hq]
  · intro hempty
    rw [hsent, ← hq, hempty, List.append_nil]
  · intro i j A B hij hA hB hj
    rw [← hq] at hA hB
    rw [List.getElem?_append_left (by omega)] at hA
    rw [List.getElem?_append_left hj] at hB
    exact ⟨hA, hB⟩

/-- Instance of C8: two requests arrive as `A` then `B`, the sender of `B` wins
the race for the channel, and the worker sends `B` then `A`, the order of the
channel sends. -/
theorem worker_fifo_witness :
    ∃ s, System.run echoEnv System.init sampleSchedule = some s ∧
      s.enqueued.map (fun r => r.Ev) = ["B", "A"] ∧
      s.world.sends.map (fun t => t.Event) = ["B", "A"] ∧
      s.world.sends.map some = s.enqueued.map transformData := by
  obtain ⟨s, hrun, _, _, _, _, hdrained, _⟩ := worker_fifo echoEnv sampleSchedule
  have hval : (System.run echoEnv System.init sampleSchedule).map
      (fun s => (s.enqueued.map (fun r => r.Ev), s.world.sends.map (fun t => t.Event),
        s.requestChannel.length)) = some (["B", "A"], ["B", "A"], 0) := by decide
  rw [hrun] at hval
  simp only [Option.map_some', Option.some.injEq, Prod.mk.injEq] at hval
  exact ⟨s, hrun, hval.1, hval.2.1, hdrained (List.length_eq_zero.mp hval.2.2)⟩

end GoServer
